import Mathlib

/-!
Shallow embedding of the quiz model of `QuiVeutGagnerDesElectrons`
(src/questions.py, src/main.py, src/pages/results.py, src/utils.py).

Python's in-place mutation is modelled by explicit state passing; the
exceptions of utils.py that drive navigation are modelled by an inductive
`Exc` returned alongside the new state; Python's built-in IndexError from
list subscripting is a separate constructor.  Randomness (`randint`,
while-loops retrying random draws) is modelled by explicit draw streams
and, for the retrying loops, fuel returning `Option`.
-/

namespace QuiVeut

/-- One record of the `choices` array of the YAML question source:
`{txt: string, correct: bool (optional, default false)}`. -/
structure Choice where
  txt : String
  correct : Bool
deriving DecidableEq

/-- One question record of the YAML source: a question text and its choices. -/
structure QuestionData where
  question : String
  choices : List Choice
deriving DecidableEq

/-- State of `questions.py::Question`: fields `text`, `answers`,
`display_answers`, `correct_answer`, `fifty_fifty`, `phone`, `public`. -/
structure Question where
  text : String
  answers : List String
  display_answers : List String
  correct_answer : Nat
  fifty_fifty : Finset Nat
  phone : Option (Nat × Int)
  public : Option (List Int)
deriving DecidableEq

/-- Models a Python loop `for i in range(start, start+len(l)): l[i] = f i l[i]`,
i.e. an indexed in-place rewrite of a list, starting at index `start`. -/
def updateEach (f : Nat → α → α) : Nat → List α → List α
  | _, [] => []
  | i, a :: as => f i a :: updateEach f (i + 1) as

/-- The `for i, choice in iterator` loop of `Question.__init__`
(src/questions.py lines 56-60), with `RANDOMIZE_CHOICES = False` in
config.py so the iterator is `enumerate(data["choices"])`: accumulates
`answers`, overwrites `correct_answer` on every choice flagged correct,
and inserts every flagged index into `fifty_fifty`. -/
def initFold : List Choice → Nat → List String → Nat → Finset Nat →
    List String × Nat × Finset Nat
  | [], _, ans, ca, ff => (ans, ca, ff)
  | c :: rest, i, ans, ca, ff =>
      if c.correct then initFold rest (i + 1) (ans ++ [c.txt]) i (insert i ff)
      else initFold rest (i + 1) (ans ++ [c.txt]) ca ff

/-- The `while len(self.fifty_fifty) != 2: self.fifty_fifty.add(randint(0, 100) % 4)`
loop of `Question.__init__` (lines 61-62).  `rnd k` is the k-th
`randint(0, 100)` draw; the loop is modelled with fuel, `none` meaning the
loop did not finish within the fuel. -/
def fillFifty (rnd : Nat → Nat) : Nat → Nat → Finset Nat → Option (Finset Nat)
  | 0, _, s => if s.card = 2 then some s else none
  | fuel + 1, k, s =>
      if s.card = 2 then some s
      else fillFifty rnd fuel (k + 1) (insert (rnd k % 4) s)

/-- `Question.__init__(data)` (src/questions.py lines 40-63), with
`RANDOMIZE_CHOICES = False`: builds `answers`, `correct_answer` (initially 0),
`fifty_fifty`, then copies `answers` into `display_answers`. -/
def mkQuestion (qd : QuestionData) (rnd : Nat → Nat) (fuel : Nat) :
    Option Question :=
  let r := initFold qd.choices 0 [] 0 ∅
  match fillFifty rnd fuel 0 r.2.2 with
  | none => none
  | some ff => some ⟨qd.question, r.1, r.1, r.2.1, ff, none, none⟩

/-- `Question.is_right_answer(answer)`: `answer == self.correct_answer`.
The argument is an `Int` because Python callers may pass any int. -/
def Question.is_right_answer (q : Question) (answer : Int) : Bool :=
  answer == (q.correct_answer : Int)

/-- `Question.use_fifty()` (lines 81-87):
`for i in range(4): if i not in self.fifty_fifty: self.display_answers[i] = "---"`. -/
def Question.use_fifty (q : Question) : Question :=
  let ds := updateEach
    (fun i s => if i < 4 ∧ i ∉ q.fifty_fifty then "---" else s)
    0 q.display_answers
  { q with display_answers := ds }

/-- The `while True: idx = randint(0, 3); if self.display_answers[idx] != "---": break`
loop of `Question.use_phone` (lines 93-96).  `rnd k` is the k-th
`randint(0, 3)` draw; fuel bounds the retries, and a draw outside the list
(Python IndexError) also yields `none`. -/
def phonePick (ds : List String) (rnd : Nat → Nat) : Nat → Nat → Option Nat
  | 0, _ => none
  | fuel + 1, k =>
      match ds.get? (rnd k) with
      | none => none
      | some s => if s ≠ "---" then some (rnd k) else phonePick ds rnd fuel (k + 1)

/-- `Question.use_phone()` (lines 89-104): picks a non-eliminated index, draws
confidence `vg` (the `randint(40, 100)` draw) when it is the correct index and
`vb` (the `randint(0, 70)` draw) otherwise, appends the annotation to the
displayed label and stores `phone`. -/
def Question.use_phone (q : Question) (rnd : Nat → Nat) (vg vb : Int)
    (fuel : Nat) : Option Question :=
  match phonePick q.display_answers rnd fuel 0 with
  | none => none
  | some idx =>
      let v := if idx = q.correct_answer then vg else vb
      let ds := updateEach
        (fun i s => if i = idx then s ++ " ✆:" ++ toString v ++ "%" else s)
        0 q.display_answers
      some { q with display_answers := ds, phone := some (idx, v) }

/-- `Question.use_public()` (lines 106-125).  `p` is the `randint(40, 90)`
draw of the eliminated branch; `rs` are the four `randint(0, 30)` draws of the
non-eliminated branch.  If `"---" in display_answers`: percentages start at 0,
the correct index gets `p`, every other non-eliminated index gets `100 - p`.
Otherwise the four draws are taken and the correct index gets `100 - sum`
added.  Finally each non-eliminated displayed label gets ` {public[i]}%`
appended. -/
def Question.use_public (q : Question) (p : Int) (rs : List Int) : Question :=
  let pub : List Int :=
    if "---" ∈ q.display_answers then
      (List.range 4).map (fun i =>
        if i = q.correct_answer then p
        else if q.display_answers.getD i "" = "---" then 0
        else 100 - p)
    else
      updateEach
        (fun i r => if i = q.correct_answer then r + (100 - rs.sum) else r)
        0 rs
  let ds := updateEach
    (fun i s =>
      if i < 4 ∧ s ≠ "---" then s ++ " " ++ toString (pub.getD i 0) ++ "%"
      else s)
    0 q.display_answers
  { q with public := some pub, display_answers := ds }

/-- The game exceptions of src/utils.py that drive navigation.  The
`GameException` subclasses carry `(question, answer)`; the reveal exceptions
are raised with `answer = None` so only the question is carried here. -/
inductive Exc where
  | startupExc
  | backToQuestionExc
  | victoryExc
  | goodAnswerExc (question : Question) (answer : Int)
  | badAnswerExc (question : Question) (answer : Int)
  | fiftyExc (question : Question)
  | phoneExc (question : Question)
  | publicExc (question : Question)
deriving DecidableEq

/-- Result of a call to `QuestionList.validate_answer`: a normal `return b`,
a raised game exception, or Python's built-in IndexError from `answers[answer]`. -/
inductive VAResult where
  | returned (b : Bool)
  | raised (e : Exc)
  | indexError
deriving DecidableEq

/-- Python list subscripting `l[i]` for `i : Int`: nonnegative indices below
the length are direct, indices in `[-len, -1]` count from the end, everything
else raises IndexError (modelled as `none`). -/
def pyGet (l : List α) (i : Int) : Option α :=
  if 0 ≤ i ∧ i < (l.length : Int) then l.get? i.toNat
  else if -(l.length : Int) ≤ i ∧ i < 0 then l.get? (i + l.length).toNat
  else none

/-- State of `questions.py::QuestionList` (lines 132-155): the loaded
questions, the cursor `current_question`, and the three lifeline flags.
The YAML loading of `reset`/`_read_yaml` is file I/O and is not modelled;
the claims quantify over already-loaded states. -/
structure QuestionList where
  questions : List Question
  current_question : Nat
  fifty_used : Bool
  phone_used : Bool
  public_used : Bool
deriving DecidableEq

/-- `QuestionList.get_current_question()` (lines 231-237): raises
`VictoryException` (modelled as `none`) when the cursor is at or past the
end, else returns the question at the cursor. -/
def QuestionList.get_current_question (ql : QuestionList) : Option Question :=
  if ql.questions.length ≤ ql.current_question then none
  else ql.questions.get? ql.current_question

/-- `QuestionList.validate_answer(answer)` (lines 239-251).  Fetches the
current question (propagating `VictoryException`), reads
`question.answers[answer]` (note: `answers`, not `display_answers`),
returns `False` when that label is the marker, else advances the cursor and
raises `GoodAnswerException` on the correct index, or resets the cursor to 0
and raises `BadAnswerException`. -/
def QuestionList.validate_answer (ql : QuestionList) (answer : Int) :
    QuestionList × VAResult :=
  match ql.get_current_question with
  | none => (ql, .raised .victoryExc)
  | some question =>
    match pyGet question.answers answer with
    | none => (ql, .indexError)
    | some lbl =>
      if lbl = "---" then (ql, .returned false)
      else if question.is_right_answer answer then
        ({ ql with current_question := ql.current_question + 1 },
          .raised (.goodAnswerExc question answer))
      else
        ({ ql with current_question := 0 },
          .raised (.badAnswerExc question answer))

/-- `QuestionList.use_fifty()` (lines 181-189): silent `return` when the flag
is set; else set the flag, mutate the current question (the fetch may raise
`VictoryException`) and raise `FiftyException` carrying the mutated question. -/
def QuestionList.use_fifty (ql : QuestionList) : QuestionList × Option Exc :=
  if ql.fifty_used then (ql, none)
  else
    let ql1 := { ql with fifty_used := true }
    match ql1.questions.get? ql1.current_question with
    | none => (ql1, some .victoryExc)
    | some q =>
      let q1 := q.use_fifty
      ({ ql1 with questions := ql1.questions.set ql1.current_question q1 },
        some (.fiftyExc q1))

/-- `QuestionList.use_phone()` (lines 198-206), with the same guard shape as
`use_fifty`; `none` when the inner retry loop of `Question.use_phone` does
not finish within the fuel. -/
def QuestionList.use_phone (ql : QuestionList) (rnd : Nat → Nat) (vg vb : Int)
    (fuel : Nat) : Option (QuestionList × Option Exc) :=
  if ql.phone_used then some (ql, none)
  else
    let ql1 := { ql with phone_used := true }
    match ql1.questions.get? ql1.current_question with
    | none => some (ql1, some .victoryExc)
    | some q =>
      match q.use_phone rnd vg vb fuel with
      | none => none
      | some q1 =>
          some
            ({ ql1 with questions := ql1.questions.set ql1.current_question q1 },
              some (.phoneExc q1))

/-- `QuestionList.use_public()` (lines 215-223), with the same guard shape as
`use_fifty`. -/
def QuestionList.use_public (ql : QuestionList) (p : Int) (rs : List Int) :
    QuestionList × Option Exc :=
  if ql.public_used then (ql, none)
  else
    let ql1 := { ql with public_used := true }
    match ql1.questions.get? ql1.current_question with
    | none => (ql1, some .victoryExc)
    | some q =>
      let q1 := q.use_public p rs
      ({ ql1 with questions := ql1.questions.set ql1.current_question q1 },
        some (.publicExc q1))

/-- Iterates a lifeline operation, threading the state, modelling N
successive calls. -/
def iterLifeline (f : QuestionList → QuestionList × Option Exc) :
    Nat → QuestionList → QuestionList
  | 0, ql => ql
  | n + 1, ql => iterLifeline f n (f ql).1

/-- Iterates a fallible lifeline operation (`use_phone`), threading the
state and propagating failure. -/
def iterLifelineO
    (f : QuestionList → Option (QuestionList × Option Exc)) :
    Nat → QuestionList → Option QuestionList
  | 0, ql => some ql
  | n + 1, ql =>
      match f ql with
      | none => none
      | some r => iterLifelineO f n r.1

/-- The pages the controller of src/main.py can make current.  Only the data
each page constructor receives from the quiz model is kept; rendering state
is external. -/
inductive Page where
  | startup
  | victory
  | question (q : Question)
  | goodAnswer (q : Question) (a : Int)
  | badAnswer (q : Question) (a : Int)
  | fiftyReveal (q : Question)
  | phoneReveal (q : Question)
  | publicReveal (q : Question)
deriving DecidableEq

/-- The `except` chain of `Game.step` (src/main.py lines 159-189): maps the
exception raised during a frame (if any) to the next current page.  The
`BackToQuestionException` handler constructs a `QuestionPage`, whose
`__init__` fetches `get_current_question()` and may itself raise
`VictoryException`, caught by the nested handler that yields the victory
page.  The `StartupException` handler also calls `Game.reset()` (a YAML
reload, external I/O, not modelled). -/
def gameHandle (questions : QuestionList) (page : Page) :
    Option Exc → Page
  | none => page
  | some .startupExc => .startup
  | some .backToQuestionExc =>
      match questions.get_current_question with
      | none => .victory
      | some q => .question q
  | some .victoryExc => .victory
  | some (.goodAnswerExc q a) => .goodAnswer q a
  | some (.badAnswerExc q a) => .badAnswer q a
  | some (.fiftyExc q) => .fiftyReveal q
  | some (.phoneExc q) => .phoneReveal q
  | some (.publicExc q) => .publicReveal q

/-- The transition-relevant state of `GoodAnswerPage` (src/pages/results.py
lines 39-61): the exception class chosen at construction, the display
budget `time_to_wait`, and the construction time. -/
structure ResultPageState where
  exc : Exc
  time_to_wait : Int
  start_time : Int
deriving DecidableEq

/-- `GoodAnswerPage.__init__` defaults: `exception=BackToQuestionException`,
`time_to_wait=4`. -/
def mkGoodAnswerPage (start_time : Int) : ResultPageState :=
  ⟨.backToQuestionExc, 4, start_time⟩

/-- `BadAnswerPage.__init__` passes `StartupException` and `8` to the base
constructor. -/
def mkBadAnswerPage (start_time : Int) : ResultPageState :=
  ⟨.startupExc, 8, start_time⟩

/-- The timeout check opening `GoodAnswerPage.draw` (lines 63-68):
`if cur_time - self.start_time > self.time_to_wait: raise self.exception()`. -/
def ResultPageState.draw_signal (pg : ResultPageState) (cur_time : Int) :
    Option Exc :=
  if pg.time_to_wait < cur_time - pg.start_time then some pg.exc else none

/-- The input events `GoodAnswerPage.handle_event` inspects. -/
inductive GEvent where
  | keyDown (key : Nat)
  | mouseButtonDown (button : Nat)
  | other
deriving DecidableEq

/-- `GoodAnswerPage.handle_event` (lines 89-98): the space key (pygame
`K_SPACE = 32`) or mouse button 3 raises the page's stored exception. -/
def ResultPageState.handle_event (pg : ResultPageState) (e : GEvent) :
    Option Exc :=
  let go_back :=
    match e with
    | .keyDown key => key == 32
    | .mouseButtonDown button => button == 3
    | .other => false
  if go_back then some pg.exc else none

/-! Concrete states used to evaluate the model on closed inputs. -/

/-- A question as built from the record
`{question: Q, choices: [A (correct), B, C, D]}` once the fifty-fifty set
has settled on `{0, 1}`. -/
def sampleQuestion : Question :=
  ⟨"Q", ["A", "B", "C", "D"], ["A", "B", "C", "D"], 0, {0, 1}, none, none⟩

/-- A one-question session at the start. -/
def sampleQL : QuestionList := ⟨[sampleQuestion], 0, false, false, false⟩

/-- A two-question session sitting on the second question. -/
def sampleQL2 : QuestionList :=
  ⟨[sampleQuestion, sampleQuestion], 1, false, false, false⟩

/-- `sampleQuestion` after the fifty-fifty lifeline: choices 2 and 3 show
the elimination marker. -/
def elimQuestion : Question := sampleQuestion.use_fifty

/-- A two-question session on the second question, after the fifty-fifty
lifeline was consumed on it. -/
def elimQL : QuestionList :=
  ⟨[sampleQuestion, elimQuestion], 1, true, false, false⟩

/-- A well-formed record: exactly the first choice is marked correct. -/
def oneCorrectData : QuestionData :=
  ⟨"Q", [⟨"A", true⟩, ⟨"B", false⟩, ⟨"C", false⟩, ⟨"D", false⟩]⟩

/-- A draw stream for `randint(0, 100)` yielding 1, 2, 3, ... -/
def succStream : Nat → Nat := fun k => k + 1

/-- The question `mkQuestion` builds from `oneCorrectData` with the
`succStream` draws: the fifty-fifty loop adds index 1 to `{0}`. -/
def oneCorrectQ : Question :=
  ⟨"Q", ["A", "B", "C", "D"], ["A", "B", "C", "D"], 0,
    insert 1 (insert 0 ∅), none, none⟩

/-- A malformed record: choices 0 and 2 are both marked correct. -/
def twoCorrectData : QuestionData :=
  ⟨"Q", [⟨"A", true⟩, ⟨"B", false⟩, ⟨"C", true⟩, ⟨"D", false⟩]⟩

/-- The question `mkQuestion` builds from `twoCorrectData`: the last marked
choice (index 2) wins. -/
def twoCorrectQ : Question :=
  ⟨"Q", ["A", "B", "C", "D"], ["A", "B", "C", "D"], 2,
    insert 2 (insert 0 ∅), none, none⟩

/-- A `randint(0, 3)` draw stream always yielding 0. -/
def zeroStream : Nat → Nat := fun _ => 0

/-- `sampleQuestion` after the phone lifeline with draws from `zeroStream`:
index 0 is suggested with confidence 70. -/
def phonedQuestion : Question :=
  ⟨"Q", ["A", "B", "C", "D"], ["A ✆:70%", "B", "C", "D"], 0, {0, 1},
    some (0, 70), none⟩

/-- `sampleQL` after one call to `use_phone` with draws from `zeroStream`. -/
def phonedQL : QuestionList := ⟨[phonedQuestion], 0, false, true, false⟩

/-! Helper lemmas. -/

/-- The cursor guard of `get_current_question` coincides with `List.get?`:
the out-of-range branch is exactly where `get?` is `none`. -/
theorem get_current_question_eq (ql : QuestionList) :
    ql.get_current_question = ql.questions.get? ql.current_question := by
  unfold QuestionList.get_current_question
  by_cases h : ql.questions.length ≤ ql.current_question
  · rw [if_pos h, List.get?_eq_none.2 h]
  · rw [if_neg h]

/-- Python subscripting with a nonnegative index agrees with `List.get?`,
including the out-of-range case. -/
theorem pyGet_natCast (l : List α) (n : Nat) : pyGet l (n : Int) = l.get? n := by
  unfold pyGet
  by_cases h : n < l.length
  · rw [if_pos ⟨Int.natCast_nonneg n, by exact_mod_cast h⟩]
    simp
  · rw [if_neg (by push_neg; intro _; exact_mod_cast Nat.le_of_not_lt h)]
    rw [if_neg (by push_neg; intro _; exact Int.natCast_nonneg n)]
    exact (List.get?_eq_none.2 (Nat.le_of_not_lt h)).symm

/-- Whatever the fifty-fifty filling loop returns has exactly two members,
contains the initial set, and only adds indices below 4. -/
theorem fillFifty_spec (rnd : Nat → Nat) :
    ∀ fuel k s s', fillFifty rnd fuel k s = some s' →
      s'.card = 2 ∧ s ⊆ s' ∧ ∀ x ∈ s', x ∈ s ∨ x < 4 := by
  intro fuel
  induction fuel with
  | zero =>
    intro k s s' h
    by_cases hc : s.card = 2
    · rw [fillFifty, if_pos hc] at h
      cases h
      exact ⟨hc, Finset.Subset.refl s, fun x hx => Or.inl hx⟩
    · rw [fillFifty, if_neg hc] at h
      cases h
  | succ n ih =>
    intro k s s' h
    by_cases hc : s.card = 2
    · rw [fillFifty, if_pos hc] at h
      cases h
      exact ⟨hc, Finset.Subset.refl s, fun x hx => Or.inl hx⟩
    · rw [fillFifty, if_neg hc] at h
      obtain ⟨h1, h2, h3⟩ := ih (k + 1) _ s' h
      refine ⟨h1, fun x hx => h2 (Finset.mem_insert_of_mem hx), fun x hx => ?_⟩
      rcases h3 x hx with hi | h4
      · rcases Finset.mem_insert.1 hi with he | hs
        · exact Or.inr (he ▸ Nat.mod_lt _ (by norm_num))
        · exact Or.inl hs
      · exact Or.inr h4

/-- The `answers` accumulator of the init loop: the texts are appended in
order. -/
theorem initFold_ans :
    ∀ cs i ans ca ff,
      (initFold cs i ans ca ff).1 = ans ++ cs.map (fun c => c.txt) := by
  intro cs
  induction cs with
  | nil => intro i ans ca ff; simp [initFold]
  | cons c rest ih =>
    intro i ans ca ff
    by_cases hc : c.correct
    · rw [initFold, if_pos hc, ih]
      simp
    · rw [initFold, if_neg hc, ih]
      simp

/-- If no remaining choice is flagged correct, the `correct_answer`
accumulator is returned unchanged. -/
theorem initFold_ca_all_false :
    ∀ cs i ans ca ff, (∀ c ∈ cs, c.correct = false) →
      (initFold cs i ans ca ff).2.1 = ca := by
  intro cs
  induction cs with
  | nil => intro i ans ca ff _; simp [initFold]
  | cons c rest ih =>
    intro i ans ca ff h
    rw [initFold, if_neg (by simp [h c (by simp)])]
    exact ih (i + 1) _ ca ff (fun c' hc' => h c' (by simp [hc']))

/-- If position `j` holds a flagged choice and every later position does not,
the `correct_answer` accumulator ends at `i + j` (the last write wins). -/
theorem initFold_ca_last :
    ∀ cs j c i ans ca ff, cs.get? j = some c → c.correct = true →
      (∀ k c', j < k → cs.get? k = some c' → c'.correct = false) →
      (initFold cs i ans ca ff).2.1 = i + j := by
  intro cs
  induction cs with
  | nil => intro j c i ans ca ff hj _ _; simp at hj
  | cons x rest ih =>
    intro j c i ans ca ff hj hc hafter
    cases j with
    | zero =>
      rw [List.get?_cons_zero] at hj
      cases hj
      rw [initFold, if_pos hc]
      rw [initFold_ca_all_false rest (i + 1) _ i (insert i ff)
        (fun c' hc' => by
          obtain ⟨k, hk⟩ := List.get?_of_mem hc'
          exact hafter (k + 1) c' (Nat.succ_pos k) (by simpa using hk))]
      simp
    | succ j =>
      rw [List.get?_cons_succ] at hj
      have hrec := ih j c (i + 1) (ans ++ [x.txt])
        (if x.correct then i else ca) (if x.correct then insert i ff else ff)
        hj hc
        (fun k c' hk hg => hafter (k + 1) c' (by omega) (by simpa using hg))
      by_cases hx : x.correct
      · rw [initFold, if_pos hx]
        rw [if_pos hx, if_pos hx] at hrec
        rw [hrec]
        omega
      · rw [initFold, if_neg hx]
        rw [if_neg hx, if_neg hx] at hrec
        rw [hrec]
        omega

/-- Shape of a question built by `mkQuestion` from a 4-choice record with
exactly one choice flagged correct: texts copied in order, correct index
below 4, and the settled fifty-fifty set has two members, contains the
correct index and stays below 4. -/
theorem mkQuestion_shape (qd : QuestionData) (c0 c1 c2 c3 : Choice)
    (rnd : Nat → Nat) (fuel : Nat) (q : Question)
    (hch : qd.choices = [c0, c1, c2, c3])
    (hone : [c0.correct, c1.correct, c2.correct, c3.correct].count true = 1)
    (hq : mkQuestion qd rnd fuel = some q) :
    q.answers = [c0.txt, c1.txt, c2.txt, c3.txt] ∧
    q.display_answers = [c0.txt, c1.txt, c2.txt, c3.txt] ∧
    q.correct_answer < 4 ∧
    q.fifty_fifty.card = 2 ∧
    q.correct_answer ∈ q.fifty_fifty ∧
    (∀ x ∈ q.fifty_fifty, x < 4) := by
  simp only [mkQuestion] at hq
  cases hf : fillFifty rnd fuel 0 ((initFold qd.choices 0 [] 0 ∅).2.2) with
  | none => rw [hf] at hq; cases hq
  | some ff =>
    rw [hf] at hq
    obtain ⟨hcard, hsub, hbnd⟩ := fillFifty_spec rnd fuel 0 _ ff hf
    cases hq
    rw [hch] at hsub hbnd ⊢
    cases hb0 : c0.correct <;> cases hb1 : c1.correct <;>
      cases hb2 : c2.correct <;> cases hb3 : c3.correct <;>
      simp [hb0, hb1, hb2, hb3] at hone <;>
      simp only [initFold, hb0, hb1, hb2, hb3, if_true, if_false,
        List.nil_append, List.append_nil] at hsub hbnd ⊢ <;>
      refine ⟨rfl, rfl, by norm_num, hcard,
        hsub (Finset.mem_insert_self _ _), fun x hx => ?_⟩ <;>
      · rcases hbnd x hx with hi | h4
        · simp at hi
          omega
        · exact h4

/-- Once `use_fifty` has run on the session, the flag is set, whatever
branch was taken. -/
theorem use_fifty_sets_flag (ql : QuestionList) :
    (ql.use_fifty).1.fifty_used = true := by
  unfold QuestionList.use_fifty
  by_cases h : ql.fifty_used
  · simp [h]
  · simp only [h, if_false, Bool.false_eq_true]
    cases hg : ({ ql with fifty_used := true } : QuestionList).questions.get?
        ({ ql with fifty_used := true } : QuestionList).current_question <;>
      simp [hg]

/-- A second call to `use_fifty` is the silent early `return`. -/
theorem use_fifty_of_used (ql : QuestionList) (h : ql.fifty_used = true) :
    ql.use_fifty = (ql, none) := by
  simp [QuestionList.use_fifty, h]

/-- Once `use_public` has run on the session, the flag is set. -/
theorem use_public_sets_flag (ql : QuestionList) (p : Int) (rs : List Int) :
    (ql.use_public p rs).1.public_used = true := by
  unfold QuestionList.use_public
  by_cases h : ql.public_used
  · simp [h]
  · simp only [h, if_false, Bool.false_eq_true]
    cases hg : ({ ql with public_used := true } : QuestionList).questions.get?
        ({ ql with public_used := true } : QuestionList).current_question <;>
      simp [hg]

/-- A second call to `use_public` is the silent early `return`. -/
theorem use_public_of_used (ql : QuestionList) (p : Int) (rs : List Int)
    (h : ql.public_used = true) : ql.use_public p rs = (ql, none) := by
  simp [QuestionList.use_public, h]

/-- If `use_phone` finishes, the resulting state has the flag set. -/
theorem use_phone_sets_flag (ql ql1 : QuestionList) (rnd : Nat → Nat)
    (vg vb : Int) (fuel : Nat) (r : Option Exc)
    (h : ql.use_phone rnd vg vb fuel = some (ql1, r)) :
    ql1.phone_used = true := by
  unfold QuestionList.use_phone at h
  by_cases hu : ql.phone_used
  · simp only [hu, if_true] at h
    cases h
    exact hu
  · simp only [hu, if_false, Bool.false_eq_true] at h
    cases hg : ({ ql with phone_used := true } : QuestionList).questions.get?
        ({ ql with phone_used := true } : QuestionList).current_question with
    | none =>
      rw [hg] at h
      cases h
      rfl
    | some q =>
      rw [hg] at h
      dsimp only at h
      cases hp : q.use_phone rnd vg vb fuel with
      | none => rw [hp] at h; cases h
      | some q1 =>
        rw [hp] at h
        cases h
        rfl

/-- A second call to `use_phone` is the silent early `return`. -/
theorem use_phone_of_used (ql : QuestionList) (rnd : Nat → Nat)
    (vg vb : Int) (fuel : Nat) (h : ql.phone_used = true) :
    ql.use_phone rnd vg vb fuel = some (ql, none) := by
  simp [QuestionList.use_phone, h]

/-- A state that a lifeline maps to itself silently is fixed under any
number of further calls. -/
theorem iterLifeline_fix (f : QuestionList → QuestionList × Option Exc)
    (ql : QuestionList) (h : f ql = (ql, none)) :
    ∀ n, iterLifeline f n ql = ql := by
  intro n
  induction n with
  | zero => rfl
  | succ n ih => rw [iterLifeline, h]; exact ih

/-- Fallible analogue of `iterLifeline_fix`. -/
theorem iterLifelineO_fix
    (f : QuestionList → Option (QuestionList × Option Exc))
    (ql : QuestionList) (h : f ql = some (ql, none)) :
    ∀ n, iterLifelineO f n ql = some ql := by
  intro n
  induction n with
  | zero => rfl
  | succ n ih => rw [iterLifelineO, h]; exact ih

/-- After `use_fifty`, a displayed label equals the marker exactly when its
index is outside the fifty-fifty set, provided no original label is the
marker itself. -/
theorem use_fifty_display_iff (q : Question) (t0 t1 t2 t3 : String)
    (hda : q.display_answers = [t0, t1, t2, t3])
    (h0 : t0 ≠ "---") (h1 : t1 ≠ "---") (h2 : t2 ≠ "---") (h3 : t3 ≠ "---") :
    ∀ i, i < 4 →
      ((q.use_fifty).display_answers.getD i "" = "---" ↔
        i ∉ q.fifty_fifty) := by
  intro i hi
  simp only [Question.use_fifty, hda, updateEach]
  interval_cases i
  · by_cases hm : (0 : Nat) ∈ q.fifty_fifty
    · simp [hm, h0]
    · simp [hm]
  · by_cases hm : (1 : Nat) ∈ q.fifty_fifty
    · simp [hm, h1]
    · simp [hm]
  · by_cases hm : (2 : Nat) ∈ q.fifty_fifty
    · simp [hm, h2]
    · simp [hm]
  · by_cases hm : (3 : Nat) ∈ q.fifty_fifty
    · simp [hm, h3]
    · simp [hm]

/-- A fifty-fifty set of two members leaves at least one of the four
positions eliminated, so the marker occurs among the displayed labels after
`use_fifty`. -/
theorem use_fifty_marker_mem (q : Question) (t0 t1 t2 t3 : String)
    (hda : q.display_answers = [t0, t1, t2, t3])
    (hcard : q.fifty_fifty.card = 2) :
    "---" ∈ (q.use_fifty).display_answers := by
  obtain ⟨i, hi, hm⟩ : ∃ i, i < 4 ∧ i ∉ q.fifty_fifty := by
    by_contra hall
    push_neg at hall
    have hsub : Finset.range 4 ⊆ q.fifty_fifty := fun x hx =>
      hall x (Finset.mem_range.1 hx)
    have hle := Finset.card_le_card hsub
    rw [Finset.card_range, hcard] at hle
    omega
  simp only [Question.use_fifty, hda, updateEach]
  interval_cases i <;> simp [hm]

/-! Claim theorems. -/

/-- C1: contrary to the claim, `validate_answer` on an index whose
*displayed* label is the elimination marker is not a no-op: the guard reads
`question.answers`, which `use_fifty` never touches, so the eliminated wrong
index 2 of `elimQL` (whose displayed label is the marker) resets the cursor
from 1 to 0 and raises `BadAnswerException`. -/
theorem validate_eliminated_not_noop :
    elimQuestion.display_answers.getD 2 "" = "---" ∧
    elimQL.validate_answer 2 =
      (⟨[sampleQuestion, elimQuestion], 0, true, false, false⟩,
        VAResult.raised (Exc.badAnswerExc elimQuestion 2)) := by
  decide

/-- C3: `validate_answer` on the correct index (whose stored label is not
the elimination marker) advances the cursor by exactly one and raises
`GoodAnswerException`; and whenever the cursor equals the question count,
`get_current_question` raises `VictoryException` (modelled as `none`)
instead of returning a question. -/
theorem validate_correct_advances (ql : QuestionList) (q : Question)
    (lbl : String)
    (hq : ql.questions.get? ql.current_question = some q)
    (hlbl : q.answers.get? q.correct_answer = some lbl)
    (hne : lbl ≠ "---") :
    ql.validate_answer (q.correct_answer : Int) =
      ({ ql with current_question := ql.current_question + 1 },
        VAResult.raised (Exc.goodAnswerExc q (q.correct_answer : Int))) ∧
    (∀ ql2 : QuestionList, ql2.current_question = ql2.questions.length →
      ql2.get_current_question = none) := by
  constructor
  · unfold QuestionList.validate_answer
    rw [get_current_question_eq, hq]
    dsimp only
    rw [pyGet_natCast, hlbl]
    dsimp only
    rw [if_neg hne]
    have hr : q.is_right_answer (q.correct_answer : Int) = true := by
      simp [Question.is_right_answer]
    rw [hr]
    simp
  · intro ql2 h2
    unfold QuestionList.get_current_question
    rw [if_pos (le_of_eq h2.symm)]

/-- Closed instance of `validate_correct_advances`: answering 0 on the fresh
one-question session advances the cursor to 1, and at cursor 1 (= length)
the next access yields the victory signal. -/
theorem validate_correct_advances_witness :
    sampleQL.validate_answer 0 =
      (⟨[sampleQuestion], 1, false, false, false⟩,
        VAResult.raised (Exc.goodAnswerExc sampleQuestion 0)) ∧
    (⟨[sampleQuestion], 1, false, false, false⟩ : QuestionList).get_current_question
      = none := by
  have h := validate_correct_advances sampleQL sampleQuestion "A" rfl rfl
    (by decide)
  exact ⟨h.1, h.2 ⟨[sampleQuestion], 1, false, false, false⟩ rfl⟩

/-- C4: `validate_answer` on a non-eliminated incorrect index resets the
cursor to 0 (from any position, including 0) and raises
`BadAnswerException`. -/
theorem validate_wrong_resets (ql : QuestionList) (q : Question)
    (a : Int) (lbl : String)
    (hq : ql.questions.get? ql.current_question = some q)
    (hget : pyGet q.answers a = some lbl)
    (hne : lbl ≠ "---")
    (hwrong : q.is_right_answer a = false) :
    ql.validate_answer a =
      ({ ql with current_question := 0 },
        VAResult.raised (Exc.badAnswerExc q a)) := by
  unfold QuestionList.validate_answer
  rw [get_current_question_eq, hq]
  dsimp only
  rw [hget]
  dsimp only
  rw [if_neg hne, hwrong]
  simp

/-- Closed instance of `validate_wrong_resets`: answering 2 on the second
question of `sampleQL2` resets the cursor from 1 to 0 and raises the
wrong-answer signal. -/
theorem validate_wrong_resets_witness :
    sampleQL2.validate_answer 2 =
      (⟨[sampleQuestion, sampleQuestion], 0, false, false, false⟩,
        VAResult.raised (Exc.badAnswerExc sampleQuestion 2)) := by
  exact validate_wrong_resets sampleQL2 sampleQuestion 2 "C" rfl (by decide)
    (by decide) (by decide)

/-- C10 counterexample: `validate_answer 4` on the fresh sample session does
not silently ignore the out-of-range index: it raises Python's IndexError
(from `question.answers[4]`) rather than returning normally. -/
theorem validate_out_of_range_counterexample :
    (sampleQL.validate_answer 4).2 = VAResult.indexError ∧
    VAResult.indexError ≠ VAResult.returned false ∧
    VAResult.indexError ≠ VAResult.returned true := by
  decide

/-- C10 amended: with a current question holding 4 answers, an answer index
above 3 or below -4 makes `validate_answer` raise an uncaught IndexError
(never a silent ignore), while indices -4..-1 are valid Python subscripts
aliasing positions from the end of the answer list. -/
theorem validate_out_of_range_errors (ql : QuestionList) (q : Question)
    (hq : ql.questions.get? ql.current_question = some q)
    (hlen : q.answers.length = 4) :
    (∀ a : Int, 3 < a ∨ a < -4 → ql.validate_answer a = (ql, VAResult.indexError)) ∧
    (∀ a : Int, -4 ≤ a → a < 0 →
      pyGet q.answers a = q.answers.get? (a + 4).toNat) := by
  constructor
  · intro a ha
    unfold QuestionList.validate_answer
    rw [get_current_question_eq, hq]
    dsimp only
    have hnone : pyGet q.answers a = none := by
      unfold pyGet
      rw [hlen]
      rw [if_neg (by omega), if_neg (by omega)]
    rw [hnone]
  · intro a h4 h0
    unfold pyGet
    rw [hlen]
    rw [if_neg (by omega), if_pos (by constructor <;> omega)]
    norm_num

/-- Closed instance of `validate_out_of_range_errors`: index 5 raises
IndexError on the sample session, and index -1 reads the label at
position 3. -/
theorem validate_out_of_range_errors_witness :
    sampleQL.validate_answer 5 = (sampleQL, VAResult.indexError) ∧
    pyGet sampleQuestion.answers (-1) = sampleQuestion.answers.get? 3 := by
  have h := validate_out_of_range_errors sampleQL sampleQuestion rfl rfl
  refine ⟨h.1 5 (by norm_num), ?_⟩
  have h2 := h.2 (-1) (by norm_num) (by norm_num)
  simpa using h2

/-- C2: for a question built from a record with exactly one choice marked
correct, the settled fifty-fifty set has exactly 2 members and contains the
correct index, and after `use_fifty` a choice displays the elimination
marker exactly when it is outside that set — so exactly 2 of the 4 choices
remain non-eliminated and the correct one is among them. -/
theorem fifty_invariant (qd : QuestionData) (c0 c1 c2 c3 : Choice)
    (rnd : Nat → Nat) (fuel : Nat) (q : Question)
    (hch : qd.choices = [c0, c1, c2, c3])
    (hone : [c0.correct, c1.correct, c2.correct, c3.correct].count true = 1)
    (ht : ∀ c ∈ qd.choices, c.txt ≠ "---")
    (hq : mkQuestion qd rnd fuel = some q) :
    q.fifty_fifty.card = 2 ∧ q.correct_answer ∈ q.fifty_fifty ∧
    ∀ i, i < 4 →
      ((q.use_fifty).display_answers.getD i "" = "---" ↔
        i ∉ q.fifty_fifty) := by
  obtain ⟨hans, hda, hclt, hcard, hcmem, hbnd⟩ :=
    mkQuestion_shape qd c0 c1 c2 c3 rnd fuel q hch hone hq
  exact ⟨hcard, hcmem,
    use_fifty_display_iff q _ _ _ _ hda
      (ht c0 (by rw [hch]; simp)) (ht c1 (by rw [hch]; simp))
      (ht c2 (by rw [hch]; simp)) (ht c3 (by rw [hch]; simp))⟩

/-- Closed instance of `fifty_invariant` on `oneCorrectData` with the
`succStream` draws: the set is `{0, 1}`-sized 2, contains the correct
index 0, and position 2 displays the marker. -/
theorem fifty_invariant_witness :
    mkQuestion oneCorrectData succStream 5 = some oneCorrectQ ∧
    oneCorrectQ.fifty_fifty.card = 2 ∧
    oneCorrectQ.correct_answer ∈ oneCorrectQ.fifty_fifty ∧
    ((oneCorrectQ.use_fifty).display_answers.getD 2 "" = "---" ↔
      2 ∉ oneCorrectQ.fifty_fifty) := by
  have hq : mkQuestion oneCorrectData succStream 5 = some oneCorrectQ := by
    decide
  have h := fifty_invariant oneCorrectData ⟨"A", true⟩ ⟨"B", false⟩
    ⟨"C", false⟩ ⟨"D", false⟩ succStream 5 oneCorrectQ rfl (by decide)
    (by decide) hq
  exact ⟨hq, h.1, h.2.1, h.2.2 2 (by norm_num)⟩

/-- C6: for a question built from a record with exactly one choice marked
correct, `use_public` stores four percentages summing to exactly 100, both
on the fresh question (no elimination) and after `use_fifty` (elimination
occurred). -/
theorem use_public_sum_100 (qd : QuestionData) (c0 c1 c2 c3 : Choice)
    (rnd : Nat → Nat) (fuel : Nat) (q : Question)
    (hch : qd.choices = [c0, c1, c2, c3])
    (hone : [c0.correct, c1.correct, c2.correct, c3.correct].count true = 1)
    (ht : ∀ c ∈ qd.choices, c.txt ≠ "---")
    (hq : mkQuestion qd rnd fuel = some q)
    (p : Int) (rs : List Int) (hrs : rs.length = 4) :
    ((q.use_public p rs).public.getD []).sum = 100 ∧
    (((q.use_fifty).use_public p rs).public.getD []).sum = 100 := by
  obtain ⟨hans, hda, hclt, hcard, hcmem, hbnd⟩ :=
    mkQuestion_shape qd c0 c1 c2 c3 rnd fuel q hch hone hq
  have ht0 : c0.txt ≠ "---" := ht c0 (by rw [hch]; simp)
  have ht1 : c1.txt ≠ "---" := ht c1 (by rw [hch]; simp)
  have ht2 : c2.txt ≠ "---" := ht c2 (by rw [hch]; simp)
  have ht3 : c3.txt ≠ "---" := ht c3 (by rw [hch]; simp)
  constructor
  · have hnm : "---" ∉ q.display_answers := by
      intro hmem
      rw [hda] at hmem
      simp at hmem
      rcases hmem with h | h | h | h
      · exact ht0 h.symm
      · exact ht1 h.symm
      · exact ht2 h.symm
      · exact ht3 h.symm
    obtain ⟨r0, r1, r2, r3, rfl⟩ : ∃ r0 r1 r2 r3, rs = [r0, r1, r2, r3] := by
      match rs, hrs with
      | [r0, r1, r2, r3], _ => exact ⟨r0, r1, r2, r3, rfl⟩
    simp only [Question.use_public, if_neg hnm, updateEach]
    have hc4 : q.correct_answer = 0 ∨ q.correct_answer = 1 ∨
        q.correct_answer = 2 ∨ q.correct_answer = 3 := by omega
    rcases hc4 with h | h | h | h <;> rw [h] <;> simp <;> omega
  · have hm : "---" ∈ (q.use_fifty).display_answers :=
      use_fifty_marker_mem q _ _ _ _ hda hcard
    obtain ⟨a, b, hab, hff⟩ := Finset.card_eq_two.1 hcard
    have ha4 : a < 4 := hbnd a (by rw [hff]; simp)
    have hb4 : b < 4 := hbnd b (by rw [hff]; simp)
    have hcm : q.correct_answer = a ∨ q.correct_answer = b := by
      have hx := hcmem
      rw [hff] at hx
      simpa using hx
    have hd2 : (q.use_fifty).display_answers =
        [if 0 < 4 ∧ 0 ∉ q.fifty_fifty then "---" else c0.txt,
         if 1 < 4 ∧ 1 ∉ q.fifty_fifty then "---" else c1.txt,
         if 2 < 4 ∧ 2 ∉ q.fifty_fifty then "---" else c2.txt,
         if 3 < 4 ∧ 3 ∉ q.fifty_fifty then "---" else c3.txt] := by
      simp only [Question.use_fifty, hda, updateEach]
    have hc2 : (q.use_fifty).correct_answer = q.correct_answer := rfl
    have hr4 : List.range 4 = [0, 1, 2, 3] := rfl
    simp only [Question.use_public, if_pos hm, hd2, hc2, hr4, hff,
      List.map_cons, List.map_nil]
    rcases hcm with hcm | hcm <;> rw [hcm] <;>
      interval_cases a <;> interval_cases b <;>
      first
        | exact absurd rfl hab
        | (simp [ht0, ht1, ht2, ht3] <;> omega)

/-- Closed instance of `use_public_sum_100`: both the fresh and the
post-fifty audience distributions of `oneCorrectQ` sum to 100 with draws
`p = 50`, `rs = [10, 20, 5, 0]`. -/
theorem use_public_sum_100_witness :
    ((oneCorrectQ.use_public 50 [10, 20, 5, 0]).public.getD []).sum = 100 ∧
    (((oneCorrectQ.use_fifty).use_public 50 [10, 20, 5, 0]).public.getD
      []).sum = 100 := by
  exact use_public_sum_100 oneCorrectData ⟨"A", true⟩ ⟨"B", false⟩
    ⟨"C", false⟩ ⟨"D", false⟩ succStream 5 oneCorrectQ rfl (by decide)
    (by decide) (by decide) 50 [10, 20, 5, 0] rfl

/-- C7 counterexample: on a fresh question (no elimination), `use_public`
with the legitimate `randint(0, 30)` draws `[30, 30, 30, 30]` gives the
correct answer (index 0) a share of 10 — not in the 40–90 range, and
smaller than the other choices' 30. -/
theorem use_public_shares_counterexample :
    ((oneCorrectQ.use_public 0 [30, 30, 30, 30]).public.getD []) =
      [10, 30, 30, 30] ∧
    oneCorrectQ.correct_answer = 0 ∧
    ¬ (40 : Int) ≤ 10 ∧
    ¬ (30 : Int) ≤ 10 := by
  decide

/-- C7 amended: on a fresh question the correct answer's share is 100 minus
the three other `randint(0, 30)` draws — at least 10, while each incorrect
choice keeps its raw draw (at most 30), so the correct share may be below
an incorrect one; the 40–90 draw for the correct answer instead happens
after an elimination, where its share is drawn in 40–90. -/
theorem use_public_shares (qd : QuestionData) (c0 c1 c2 c3 : Choice)
    (rnd : Nat → Nat) (fuel : Nat) (q : Question)
    (hch : qd.choices = [c0, c1, c2, c3])
    (hone : [c0.correct, c1.correct, c2.correct, c3.correct].count true = 1)
    (ht : ∀ c ∈ qd.choices, c.txt ≠ "---")
    (hq : mkQuestion qd rnd fuel = some q)
    (p : Int) (r0 r1 r2 r3 : Int)
    (hr0 : 0 ≤ r0 ∧ r0 ≤ 30) (hr1 : 0 ≤ r1 ∧ r1 ≤ 30)
    (hr2 : 0 ≤ r2 ∧ r2 ≤ 30) (hr3 : 0 ≤ r3 ∧ r3 ≤ 30)
    (hp40 : 40 ≤ p) (hp90 : p ≤ 90) :
    (10 ≤ ((q.use_public p [r0, r1, r2, r3]).public.getD []).getD
        q.correct_answer 0 ∧
      ∀ i, i < 4 → i ≠ q.correct_answer →
        ((q.use_public p [r0, r1, r2, r3]).public.getD []).getD i 0 =
          [r0, r1, r2, r3].getD i 0 ∧
        ((q.use_public p [r0, r1, r2, r3]).public.getD []).getD i 0 ≤ 30) ∧
    (40 ≤ (((q.use_fifty).use_public p [r0, r1, r2, r3]).public.getD
        []).getD q.correct_answer 0 ∧
      (((q.use_fifty).use_public p [r0, r1, r2, r3]).public.getD []).getD
        q.correct_answer 0 ≤ 90) := by
  obtain ⟨hans, hda, hclt, hcard, hcmem, hbnd⟩ :=
    mkQuestion_shape qd c0 c1 c2 c3 rnd fuel q hch hone hq
  have ht0 : c0.txt ≠ "---" := ht c0 (by rw [hch]; simp)
  have ht1 : c1.txt ≠ "---" := ht c1 (by rw [hch]; simp)
  have ht2 : c2.txt ≠ "---" := ht c2 (by rw [hch]; simp)
  have ht3 : c3.txt ≠ "---" := ht c3 (by rw [hch]; simp)
  have hc4 : q.correct_answer = 0 ∨ q.correct_answer = 1 ∨
      q.correct_answer = 2 ∨ q.correct_answer = 3 := by omega
  constructor
  · have hnm : "---" ∉ q.display_answers := by
      intro hmem
      rw [hda] at hmem
      simp at hmem
      rcases hmem with h | h | h | h
      · exact ht0 h.symm
      · exact ht1 h.symm
      · exact ht2 h.symm
      · exact ht3 h.symm
    simp only [Question.use_public, if_neg hnm, updateEach]
    rcases hc4 with h | h | h | h <;> rw [h] <;>
      refine ⟨by simp <;> omega, ?_⟩ <;>
      · intro i hi hne
        interval_cases i <;> simp_all <;> omega
  · have hm : "---" ∈ (q.use_fifty).display_answers :=
      use_fifty_marker_mem q _ _ _ _ hda hcard
    have hc2 : (q.use_fifty).correct_answer = q.correct_answer := rfl
    have hr4 : List.range 4 = [0, 1, 2, 3] := rfl
    simp only [Question.use_public, if_pos hm, hc2, hr4,
      List.map_cons, List.map_nil]
    rcases hc4 with h | h | h | h <;> rw [h] <;> simp <;> omega

/-- Closed instance of `use_public_shares` at `p = 50`,
`rs = [30, 30, 30, 30]`: the fresh correct share is at least 10, the fresh
share of choice 1 is its raw draw 30, and the post-fifty correct share lies
in 40–90. -/
theorem use_public_shares_witness :
    (10 ≤ ((oneCorrectQ.use_public 50 [30, 30, 30, 30]).public.getD
      []).getD oneCorrectQ.correct_answer 0) ∧
    ((oneCorrectQ.use_public 50 [30, 30, 30, 30]).public.getD []).getD 1 0 =
      (30 : Int) ∧
    (40 ≤ (((oneCorrectQ.use_fifty).use_public 50
      [30, 30, 30, 30]).public.getD []).getD oneCorrectQ.correct_answer 0) := by
  have h := use_public_shares oneCorrectData ⟨"A", true⟩ ⟨"B", false⟩
    ⟨"C", false⟩ ⟨"D", false⟩ succStream 5 oneCorrectQ rfl (by decide)
    (by decide) (by decide) 50 30 30 30 30 (by norm_num) (by norm_num)
    (by norm_num) (by norm_num) (by norm_num) (by norm_num)
  refine ⟨h.1.1, ?_, h.2.1⟩
  have h1 := h.1.2 1 (by norm_num) (by decide)
  simpa using h1.1

/-- C5: every lifeline is idempotent: the call after the first is the exact
no-op `(state, no signal)`, and N ≥ 1 successive invocations leave the same
session (and question) state as a single one.  For the phone lifeline the
statement is conditional on the first call finishing (its inner retry loop
is unbounded in the source). -/
theorem lifeline_idempotent (ql : QuestionList) (p : Int) (rs : List Int)
    (rnd : Nat → Nat) (vg vb : Int) (fuel : Nat) :
    ((ql.use_fifty).1.use_fifty = ((ql.use_fifty).1, none) ∧
      ∀ n, 1 ≤ n →
        iterLifeline QuestionList.use_fifty n ql = (ql.use_fifty).1) ∧
    ((ql.use_public p rs).1.use_public p rs = ((ql.use_public p rs).1, none) ∧
      ∀ n, 1 ≤ n →
        iterLifeline (fun s => s.use_public p rs) n ql =
          (ql.use_public p rs).1) ∧
    (∀ ql1 r, ql.use_phone rnd vg vb fuel = some (ql1, r) →
      ql1.use_phone rnd vg vb fuel = some (ql1, none) ∧
      ∀ n, 1 ≤ n →
        iterLifelineO (fun s => s.use_phone rnd vg vb fuel) n ql =
          some ql1) := by
  refine ⟨⟨?_, ?_⟩, ⟨?_, ?_⟩, ?_⟩
  · exact use_fifty_of_used _ (use_fifty_sets_flag ql)
  · intro n hn
    obtain ⟨m, rfl⟩ : ∃ m, n = m + 1 := ⟨n - 1, by omega⟩
    rw [iterLifeline]
    exact iterLifeline_fix _ _
      (use_fifty_of_used _ (use_fifty_sets_flag ql)) m
  · exact use_public_of_used _ p rs (use_public_sets_flag ql p rs)
  · intro n hn
    obtain ⟨m, rfl⟩ : ∃ m, n = m + 1 := ⟨n - 1, by omega⟩
    rw [iterLifeline]
    exact iterLifeline_fix _ _
      (use_public_of_used _ p rs (use_public_sets_flag ql p rs)) m
  · intro ql1 r h
    have hflag := use_phone_sets_flag ql ql1 rnd vg vb fuel r h
    have hnoop := use_phone_of_used ql1 rnd vg vb fuel hflag
    refine ⟨hnoop, ?_⟩
    intro n hn
    obtain ⟨m, rfl⟩ : ∃ m, n = m + 1 := ⟨n - 1, by omega⟩
    rw [iterLifelineO, h]
    exact iterLifelineO_fix _ _ hnoop m

/-- Closed instance of `lifeline_idempotent`: two calls of each lifeline on
the fresh sample session equal one call, and the second phone call is the
silent no-op. -/
theorem lifeline_idempotent_witness :
    iterLifeline QuestionList.use_fifty 2 sampleQL = (sampleQL.use_fifty).1 ∧
    iterLifeline (fun s => s.use_public 50 [10, 20, 5, 0]) 2 sampleQL =
      (sampleQL.use_public 50 [10, 20, 5, 0]).1 ∧
    phonedQL.use_phone zeroStream 70 30 3 = some (phonedQL, none) ∧
    iterLifelineO (fun s => s.use_phone zeroStream 70 30 3) 2 sampleQL =
      some phonedQL := by
  have h := lifeline_idempotent sampleQL 50 [10, 20, 5, 0] zeroStream 70 30 3
  have hp := h.2.2 phonedQL (some (Exc.phoneExc phonedQuestion)) (by decide)
  exact ⟨h.1.2 2 (by norm_num), h.2.1.2 2 (by norm_num), hp.1,
    hp.2 2 (by norm_num)⟩

/-- C8: when the correct-answer page raises its go-back signal — its 4-second
display budget elapsed during `draw`, or the user skipped with space/right
click — the controller's handler makes the next page a Question page built
from the current session state, unless `get_current_question` raises the
victory signal, in which case the next page is the Victory page. -/
theorem correct_page_transition (ql : QuestionList) (page : Page)
    (t0 t : Int) (e : GEvent) :
    (4 < t - t0 →
      gameHandle ql page ((mkGoodAnswerPage t0).draw_signal t) =
        match ql.get_current_question with
        | none => Page.victory
        | some q => Page.question q) ∧
    ((e = GEvent.keyDown 32 ∨ e = GEvent.mouseButtonDown 3) →
      gameHandle ql page ((mkGoodAnswerPage t0).handle_event e) =
        match ql.get_current_question with
        | none => Page.victory
        | some q => Page.question q) := by
  constructor
  · intro ht
    have hsig : (mkGoodAnswerPage t0).draw_signal t =
        some Exc.backToQuestionExc := by
      unfold ResultPageState.draw_signal mkGoodAnswerPage
      exact if_pos ht
    rw [hsig]
    cases hgc : ql.get_current_question <;> simp [gameHandle, hgc]
  · intro he
    have hsig : (mkGoodAnswerPage t0).handle_event e =
        some Exc.backToQuestionExc := by
      rcases he with rfl | rfl <;> rfl
    rw [hsig]
    cases hgc : ql.get_current_question <;> simp [gameHandle, hgc]

/-- Closed instance of `correct_page_transition`: with one question pending,
both the 5-second timeout and the space-key skip lead to the Question page
for `sampleQuestion`; with the cursor past the end, the timeout leads to
the Victory page. -/
theorem correct_page_transition_witness :
    gameHandle sampleQL Page.startup ((mkGoodAnswerPage 0).draw_signal 5) =
      Page.question sampleQuestion ∧
    gameHandle sampleQL Page.startup
      ((mkGoodAnswerPage 0).handle_event (GEvent.keyDown 32)) =
      Page.question sampleQuestion ∧
    gameHandle ⟨[sampleQuestion], 1, false, false, false⟩ Page.startup
      ((mkGoodAnswerPage 0).draw_signal 5) = Page.victory := by
  have h := correct_page_transition sampleQL Page.startup 0 5
    (GEvent.keyDown 32)
  have h2 := correct_page_transition ⟨[sampleQuestion], 1, false, false, false⟩
    Page.startup 0 5 (GEvent.keyDown 32)
  exact ⟨(h.1 (by norm_num)).trans rfl,
    (h.2 (Or.inl rfl)).trans rfl,
    (h2.1 (by norm_num)).trans rfl⟩

/-- C9 counterexample: in `twoCorrectData` the first-seen marked choice is
at index 0, yet the constructed question's `correct_answer` is 2 — the
first-seen flag does not win. -/
theorem last_correct_counterexample :
    (twoCorrectData.choices.getD 0 ⟨"", false⟩).correct = true ∧
    (mkQuestion twoCorrectData zeroStream 1).map Question.correct_answer =
      some 2 ∧
    (2 : Nat) ≠ 0 := by
  decide

/-- C9 amended: the `correct_answer` of a constructed question is determined
by the *last*-seen choice flagged correct (every flagged position overwrites
it), and defaults to index 0 when no choice is flagged. -/
theorem last_correct_wins (qd : QuestionData) (rnd : Nat → Nat) (fuel : Nat)
    (q : Question) (hq : mkQuestion qd rnd fuel = some q) :
    ((∀ c ∈ qd.choices, c.correct = false) → q.correct_answer = 0) ∧
    (∀ j c, qd.choices.get? j = some c → c.correct = true →
      (∀ k c', j < k → qd.choices.get? k = some c' → c'.correct = false) →
      q.correct_answer = j) := by
  simp only [mkQuestion] at hq
  cases hf : fillFifty rnd fuel 0 ((initFold qd.choices 0 [] 0 ∅).2.2) with
  | none => rw [hf] at hq; cases hq
  | some ff =>
    rw [hf] at hq
    cases hq
    constructor
    · intro hall
      exact initFold_ca_all_false qd.choices 0 [] 0 ∅ hall
    · intro j c hj hc hafter
      have hlast := initFold_ca_last qd.choices j c 0 [] 0 ∅ hj hc hafter
      simpa using hlast

/-- Closed instance of `last_correct_wins`: index 2 holds the last marked
choice of `twoCorrectData`, and the constructed `correct_answer` is 2. -/
theorem last_correct_wins_witness :
    mkQuestion twoCorrectData zeroStream 1 = some twoCorrectQ ∧
    twoCorrectQ.correct_answer = 2 := by
  have hq : mkQuestion twoCorrectData zeroStream 1 = some twoCorrectQ := by
    decide
  refine ⟨hq, ?_⟩
  refine (last_correct_wins twoCorrectData zeroStream 1 twoCorrectQ hq).2 2
    ⟨"C", true⟩ rfl rfl ?_
  intro k c' hk hg
  rcases k with _ | _ | _ | _ | k
  · omega
  · omega
  · omega
  · simp only [twoCorrectData] at hg
    rw [List.get?_cons_succ, List.get?_cons_succ, List.get?_cons_succ,
      List.get?_cons_zero] at hg
    cases hg
    rfl
  · simp only [twoCorrectData] at hg
    rw [List.get?_cons_succ, List.get?_cons_succ, List.get?_cons_succ,
      List.get?_cons_succ] at hg
    exact absurd hg (by simp)

end QuiVeut
